import Mathlib

/-!
Verification development for the GPS attendance application
(`src/main1.py`, `src/db.py`).  The Python source is shallowly embedded:
strings are lists of characters, SQLite tables are Lean lists, machine
reals are rationals, and the geodesic distance routine (a third-party
library call) is an explicit function parameter of the pipeline.
-/

set_option linter.unusedVariables false

namespace GPSAtt

/-!  Character-level fragment of Python's `str` semantics.

`Security.sanitize_name` (src/main1.py:120-137) uses `str.strip`,
`str.split`, `str.isalpha`, `str.isspace` and `str.lower`.  The embedding
models these over the character fragment actually relevant to the claims:
ASCII, plus U+0130 (LATIN CAPITAL LETTER I WITH DOT ABOVE, code 304) — the
single code point whose Python `str.lower` image expands to two characters
(U+0069 followed by the combining dot U+0307, per Unicode SpecialCasing) —
and U+0307 itself (a combining mark, for which `str.isalpha` is false).
Characters outside the fragment are classified as neither alphabetic nor
whitespace and lowercase to themselves. -/

/-- Python `c.isspace()` restricted to ASCII whitespace
(space, tab, LF, VT, FF, CR). -/
def pyIsSpace (c : Char) : Bool :=
  decide (c.toNat = 32 ∨ c.toNat = 9 ∨ c.toNat = 10 ∨ c.toNat = 11 ∨
          c.toNat = 12 ∨ c.toNat = 13)

/-- Python `c.isalpha()` on the modeled fragment: ASCII letters and U+0130. -/
def pyIsAlpha (c : Char) : Bool :=
  decide ((65 ≤ c.toNat ∧ c.toNat ≤ 90) ∨ (97 ≤ c.toNat ∧ c.toNat ≤ 122) ∨
          c.toNat = 304)

/-- Membership in the literal `"'-."` of src/main1.py:133
(apostrophe 39, hyphen 45, period 46). -/
def pyPunct (c : Char) : Bool :=
  decide (c.toNat = 39 ∨ c.toNat = 45 ∨ c.toNat = 46)

/-- The character test of src/main1.py:133:
`c.isalpha() or c.isspace() or c in "'-."`. -/
def nameCharOk (c : Char) : Bool := pyIsAlpha c || pyIsSpace c || pyPunct c

/-- Simple (one-to-one) lowercase mapping: ASCII `A`-`Z` to `a`-`z`,
identity elsewhere. -/
def lc (c : Char) : Char :=
  if 65 ≤ c.toNat ∧ c.toNat ≤ 90 then Char.ofNat (c.toNat + 32) else c

/-- Python `str.lower` per character: full Unicode case mapping on the
modeled fragment.  It agrees with `lc` except at U+0130, which expands to
`i` (105) followed by the combining dot above (775). -/
def pyLowerChar (c : Char) : List Char :=
  if 65 ≤ c.toNat ∧ c.toNat ≤ 90 then [Char.ofNat (c.toNat + 32)]
  else if c.toNat = 304 then [Char.ofNat 105, Char.ofNat 775]
  else [c]

/-- Python `str.lower` on a whole string. -/
def pyLower (l : List Char) : List Char := (l.map pyLowerChar).flatten

/-- Python `str.split()` (split on whitespace runs, dropping empty pieces),
by structural recursion from the right: a non-space character either starts
a fresh word (when followed by a space or the end) or is prepended to the
word that follows it. -/
def pyWords : List Char → List (List Char)
  | [] => []
  | [c] => if pyIsSpace c then [] else [[c]]
  | c :: d :: cs =>
    if pyIsSpace c then pyWords (d :: cs)
    else
      match pyWords (d :: cs) with
      | [] => [[c]]
      | w :: ws => if pyIsSpace d then [c] :: w :: ws else (c :: w) :: ws

/-- Python `' '.join(ws)`. -/
def joinSp : List (List Char) → List Char
  | [] => []
  | w :: ws =>
    match ws with
    | [] => w
    | _ :: _ => w ++ ' ' :: joinSp ws

/-- Embeds `Security.sanitize_name` (src/main1.py:120-137): reject a falsy
(empty) input; collapse whitespace via `' '.join(name.strip().split())`
(the leading `.strip()` is the identity on the result of `.split()`, which
already discards leading and trailing whitespace, so it is folded into
`pyWords`); reject a collapsed length outside `[2, 100]`; reject any
character that is not a letter, whitespace, apostrophe, hyphen or period;
finally return the lowercased name. -/
def sanitize_name (x : List Char) : Option (List Char) :=
  if x = [] then none
  else if (joinSp (pyWords x)).length < 2 ∨ 100 < (joinSp (pyWords x)).length then none
  else if (joinSp (pyWords x)).all nameCharOk then some (pyLower (joinSp (pyWords x)))
  else none

example : sanitize_name "  John   Doe ".toList = some "john doe".toList := by decide

example : sanitize_name "J".toList = none := by decide

example : sanitize_name "John5".toList = none := by decide

example : sanitize_name [] = none := by decide

/-!  Data model.

The SQLite tables of src/db.py are embedded as Lean lists; autoincrement
primary keys are modeled by `nextZoneId` / `nextUserId` counters.  Columns
never read by any claim (descriptions, image blobs, device info, audit
metadata) are omitted.  `REAL` columns are rationals. -/

/-- The `status` CHECK constraint of the attendance table (src/db.py:123). -/
inductive AttStatus where
  | Present
  | Absent
  | Late
  | Excused
  deriving DecidableEq

/-- A row of `location_zones` (src/db.py:75-93). -/
structure Zone where
  id : Nat
  name : List Char
  latitude : ℚ
  longitude : ℚ
  radius_meters : ℚ
  is_active : Bool
  updated_at : Nat
  deriving DecidableEq

/-- A row of `users` (src/db.py:60-72); `is_active` defaults to 1. -/
structure User where
  id : Nat
  name : List Char
  is_active : Bool
  deriving DecidableEq

/-- A row of `attendance` (src/db.py:96-129); dates are day indices and
times are seconds within the day. -/
structure AttRecord where
  user_id : Nat
  date : Nat
  time : Nat
  status : AttStatus
  latitude : ℚ
  longitude : ℚ
  distance_meters : ℚ
  zone_id : Nat
  accuracy_meters : ℚ
  deriving DecidableEq

/-- The whole database. -/
structure DB where
  zones : List Zone
  users : List User
  attendance : List AttRecord
  nextZoneId : Nat
  nextUserId : Nat
  deriving DecidableEq

/-- A browser location reading as consumed by the pipeline. -/
structure Loc where
  latitude : ℚ
  longitude : ℚ
  accuracy : ℚ
  deriving DecidableEq

/-- A captured camera image as seen by `ImageValidator.validate_image`:
its size in megabytes, whether `Image.open` succeeds, and its pixel
dimensions. -/
structure ImgBuffer where
  sizeMB : ℚ
  decodable : Bool
  width : Nat
  height : Nat
  deriving DecidableEq

/-- Result of `get_attendance_stats`; `absent` is a Python int (may be
negative) and `rate` a Python float, modeled as a rational. -/
structure Stats where
  total : Nat
  present : Nat
  absent : ℤ
  rate : ℚ
  deriving DecidableEq

/-!  Operations of `DatabaseManager` (src/main1.py). -/

/-- Embeds `DatabaseManager.create_zone` (src/main1.py:237-261).  When
`set_active` is requested the method first runs
`UPDATE location_zones SET is_active = 0`, then INSERTs the new row with
`is_active = 1` and commits.  `insertOk = false` models the INSERT raising
(a CHECK-constraint violation or a storage fault), in which case the
method returns False from its `except` branch; the already-executed
deactivation UPDATE remains pending on the shared connection, so it is
kept in the state. -/
def create_zone (db : DB) (name : List Char) (lat lon radius : ℚ)
    (set_active : Bool) (now : Nat) (insertOk : Bool) : DB × Bool :=
  let zs := if set_active then db.zones.map (fun z => { z with is_active := false }) else db.zones
  if insertOk then
    ({ db with
        zones := zs ++ [⟨db.nextZoneId, name, lat, lon, radius, set_active, now⟩],
        nextZoneId := db.nextZoneId + 1 }, true)
  else
    ({ db with zones := zs }, false)

/-- Embeds `DatabaseManager.activate_zone` (src/main1.py:263-281): set
`is_active = 0` on every row, then `is_active = 1, updated_at = now` on the
row whose id matches (no row need match), commit, and return True. -/
def activate_zone (db : DB) (zone_id : Nat) (now : Nat) : DB × Bool :=
  let zs := db.zones.map (fun z => { z with is_active := false })
  ({ db with
      zones := zs.map (fun z =>
        if z.id = zone_id then { z with is_active := true, updated_at := now } else z) },
   true)

/-- Embeds `DatabaseManager.get_active_location_zone`
(src/main1.py:184-218): among rows with `is_active = 1`, the one with the
greatest `updated_at` (ORDER BY updated_at DESC LIMIT 1), if any. -/
def get_active_location_zone (db : DB) : Option Zone :=
  (db.zones.filter (fun z => z.is_active)).argmax (fun z => z.updated_at)

/-- Embeds `DatabaseManager.get_attendance_stats` (src/main1.py:283-318):
`total` counts users with `is_active = 1`; `present` is
`COUNT(DISTINCT user_id)` over attendance rows of the given date with
status Present; `absent = total - present`; `rate = present/total*100`
when `total > 0`, else 0. -/
def get_attendance_stats (db : DB) (date : Nat) : Stats :=
  let total := db.users.countP (fun u => u.is_active)
  let present :=
    (((db.attendance.filter
        (fun r => decide (r.date = date ∧ r.status = AttStatus.Present))).map
      (fun r => r.user_id)).dedup).length
  { total := total
    present := present
    absent := (total : ℤ) - (present : ℤ)
    rate := if 0 < total then (present : ℚ) / (total : ℚ) * 100 else 0 }

/-- Embeds `DatabaseManager.mark_attendance` (src/main1.py:320-351).  The
INSERT and commit sit in a `try` whose `except` returns False on any
exception, committing nothing.  A row already present for
`(user_id, date)` makes the INSERT raise the `UNIQUE(user_id, date)`
constraint violation (src/db.py:128); `insertOk = false` models any other
storage exception. -/
def mark_attendance (db : DB) (user_id : Nat) (loc : Loc) (zone : Zone)
    (distance : ℚ) (now : Nat) (insertOk : Bool) : DB × Bool :=
  if insertOk && db.attendance.all
      (fun r => decide (¬(r.user_id = user_id ∧ r.date = now / 86400))) then
    ({ db with attendance := db.attendance ++
        [⟨user_id, now / 86400, now % 86400, AttStatus.Present,
          loc.latitude, loc.longitude, distance, zone.id, loc.accuracy⟩] },
     true)
  else (db, false)

/-!  The admission pipeline (src/main1.py:964-1075). -/

/-- Embeds `ImageValidator.validate_image` (src/main1.py:461-488), in
source order: missing buffer, size above 5 MB, undecodable data, then the
dimension bounds 100x100 to 4000x4000. -/
def validate_image : Option ImgBuffer → Bool
  | none => false
  | some img =>
    if 5 < img.sizeMB then false
    else if img.decodable = false then false
    else if img.width < 100 ∨ img.height < 100 then false
    else if 4000 < img.width ∨ 4000 < img.height then false
    else true

/-- Embeds `(datetime.now() - st.session_state.location_timestamp).seconds / 60`
(src/main1.py:986).  Python `timedelta.seconds` is the seconds component of
the delta, i.e. the total age in seconds reduced modulo 86400. -/
def elapsedMinutes (now ts : Nat) : ℚ := (((now - ts) % 86400 : Nat) : ℚ) / 60

/-- The freshness test of src/main1.py:987:
`elapsed_minutes > Config.LOCATION_EXPIRE_MINUTES` with the configured
window of 5 minutes (src/main1.py:90). -/
def freshnessExpired (now ts : Nat) : Bool := decide (5 < elapsedMinutes now ts)

/-- The guarded freshness stage of src/main1.py:985-989: the check runs
only when the session carries a `location_timestamp`; with none stored the
stage is skipped. -/
def locationExpired (locTs : Option Nat) (now : Nat) : Bool :=
  match locTs with
  | some ts => freshnessExpired now ts
  | none => false

/-- Embeds `LocationManager.is_within_zone` (src/main1.py:357-398) on
well-typed inputs: the geodesic distance from the zone center to the
student's coordinates (computed by the `dist` parameter, standing for
`geopy.distance.geodesic(...).meters`) compared against the zone radius;
the computed distance is returned alongside. -/
def is_within_zone (dist : ℚ × ℚ → ℚ × ℚ → ℚ) (loc : Loc) (zone : Zone) :
    Bool × ℚ :=
  let d := dist (zone.latitude, zone.longitude) (loc.latitude, loc.longitude)
  (decide (d ≤ zone.radius_meters), d)

/-- Outcome of one admission attempt, one constructor per terminal branch
of `process_attendance_marking`.  `markFailed` is the generic
`"Failed to mark attendance"` branch entered when `mark_attendance`
returns False. -/
inductive AdmissionResult where
  | invalidName
  | invalidImage
  | noLocation
  | staleLocation
  | outOfRange (distance : ℚ)
  | outsideWindow
  | alreadyRecorded (t : Nat)
  | markFailed
  | success (t : Nat) (distance : ℚ)
  deriving DecidableEq

/-- Embeds the user lookup/creation of src/main1.py:1016-1027: SELECT by
(sanitized) name; if absent, INSERT a new row (with the default
`is_active = 1`) and commit immediately. -/
def get_or_create_user (db : DB) (sname : List Char) : DB × Nat :=
  match db.users.find? (fun u => decide (u.name = sname)) with
  | some u => (db, u.id)
  | none =>
    ({ db with
        users := db.users ++ [⟨db.nextUserId, sname, true⟩],
        nextUserId := db.nextUserId + 1 }, db.nextUserId)

/-- Embeds the duplicate check and commit of src/main1.py:1029-1071:
SELECT the existing row for `(user_id, today)`; if found, report it with
its time; otherwise call `mark_attendance` and map its boolean to the
success or the generic-failure message. -/
def duplicate_and_commit (db1 : DB) (uid : Nat) (loc : Loc) (zone : Zone)
    (d : ℚ) (now : Nat) (insertOk : Bool) : DB × AdmissionResult :=
  match db1.attendance.find?
      (fun r => decide (r.user_id = uid ∧ r.date = now / 86400)) with
  | some r => (db1, AdmissionResult.alreadyRecorded r.time)
  | none =>
    let m := mark_attendance db1 uid loc zone d now insertOk
    if m.2 then (m.1, AdmissionResult.success (now % 86400) d)
    else (m.1, AdmissionResult.markFailed)

/-- Embeds `process_attendance_marking` (src/main1.py:964-1075), the
stages in source order: name sanitization; image validation; presence of a
location in the session; location freshness (skipped when the session
carries no `location_timestamp`, src/main1.py:985); zone proximity; time
window (`startT`/`endT` are the session values, defaulting to 08:00-18:00,
src/main1.py:96-97); user lookup or creation; duplicate check; commit.
`now` is seconds since the epoch; the source's repeated `datetime.now()`
calls within one run are modeled by the single `now`. -/
def process_attendance_marking (dist : ℚ × ℚ → ℚ × ℚ → ℚ) (db : DB)
    (name : List Char) (img : Option ImgBuffer) (location : Option Loc)
    (locTs : Option Nat) (now : Nat) (startT endT : Nat) (zone : Zone)
    (insertOk : Bool) : DB × AdmissionResult :=
  match sanitize_name name with
  | none => (db, AdmissionResult.invalidName)
  | some sname =>
    if validate_image img = false then (db, AdmissionResult.invalidImage)
    else
      match location with
      | none => (db, AdmissionResult.noLocation)
      | some loc =>
        if locationExpired locTs now then (db, AdmissionResult.staleLocation)
        else
          let wr := is_within_zone dist loc zone
          if wr.1 = false then (db, AdmissionResult.outOfRange wr.2)
          else if ¬(startT ≤ now % 86400 ∧ now % 86400 ≤ endT) then
            (db, AdmissionResult.outsideWindow)
          else
            let p := get_or_create_user db sname
            duplicate_and_commit p.1 p.2 loc zone wr.2 now insertOk

/-- Modelled from the spec: Identity deactivation (soft-delete).  Spec §3
states an Identity is "never mutated after creation except deactivation
(soft-delete)"; the `users` table declares the `is_active` column
(src/db.py:69) but no operation under src/ performs the update, so the
operation is taken from the spec's words: set the flag to 0 for the given
identity. -/
def deactivate_user (db : DB) (uid : Nat) : DB :=
  { db with users := db.users.map (fun u =>
      if u.id = uid then { u with is_active := false } else u) }

/-- Embeds the database state built by `python db.py`
(src/db.py:328-364): the default college zone, active, plus four inactive
sample zones; no users and no attendance. -/
def initDB : DB :=
  { zones :=
      [ ⟨1, "College Campus Main".toList, 10.678922, 77.032420, 5500, true, 0⟩,
        ⟨2, "Library".toList, 10.678500, 77.032100, 50, false, 0⟩,
        ⟨3, "Computer Lab".toList, 10.678800, 77.032300, 30, false, 0⟩,
        ⟨4, "Auditorium".toList, 10.679000, 77.032500, 100, false, 0⟩,
        ⟨5, "Sports Complex".toList, 10.679200, 77.032800, 200, false, 0⟩ ],
    users := [],
    attendance := [],
    nextZoneId := 6,
    nextUserId := 1 }

/-- States reachable from the freshly initialized database through the
operations the application exposes: zone creation and activation by the
admin panel, admission attempts (which the UI only launches when
`get_active_location_zone` returns a zone, src/main1.py:833-836), and the
spec-modelled identity deactivation.  The geodesic distance function
`dist` is fixed across the run. -/
inductive Reach (dist : ℚ × ℚ → ℚ × ℚ → ℚ) : DB → Prop where
  | init : Reach dist initDB
  | createZone (db : DB) (name : List Char) (lat lon radius : ℚ)
      (set_active : Bool) (now : Nat) (insertOk : Bool) :
      Reach dist db →
      Reach dist (create_zone db name lat lon radius set_active now insertOk).1
  | activateZone (db : DB) (zone_id now : Nat) :
      Reach dist db → Reach dist (activate_zone db zone_id now).1
  | attempt (db : DB) (name : List Char) (img : Option ImgBuffer)
      (location : Option Loc) (locTs : Option Nat) (now startT endT : Nat)
      (zone : Zone) (insertOk : Bool) :
      Reach dist db → get_active_location_zone db = some zone →
      Reach dist (process_attendance_marking dist db name img location locTs
        now startT endT zone insertOk).1
  | deactivateUser (db : DB) (uid : Nat) :
      Reach dist db → Reach dist (deactivate_user db uid)

end GPSAtt

namespace GPSAtt

theorem pyWords_cons_sp (c : Char) (cs : List Char) (h : pyIsSpace c = true) :
    pyWords (c :: cs) = pyWords cs := by
  rcases cs with _ | ⟨d, cs2⟩
  · simp [pyWords, h]
  · rw [pyWords, if_pos h]

theorem pyWords_singleton (c : Char) (h : pyIsSpace c = false) :
    pyWords [c] = [[c]] := by
  simp [pyWords, h]

theorem pyWords_ne_nil (d : Char) (cs : List Char) (hd : pyIsSpace d = false) :
    pyWords (d :: cs) ≠ [] := by
  rcases cs with _ | ⟨e, cs2⟩
  · simp [pyWords, hd]
  · rw [pyWords, if_neg (by simp [hd])]
    rcases h2 : pyWords (e :: cs2) with _ | ⟨w, ws⟩
    · simp
    · by_cases he : pyIsSpace e = true <;> simp [he]

theorem pyWords_cons_cons_sp (c d : Char) (cs : List Char)
    (hc : pyIsSpace c = false) (hd : pyIsSpace d = true) :
    pyWords (c :: d :: cs) = [c] :: pyWords (d :: cs) := by
  rw [pyWords, if_neg (by simp [hc])]
  rcases h2 : pyWords (d :: cs) with _ | ⟨w, ws⟩ <;> simp [hd]

theorem pyWords_cons_cons_nsp (c d : Char) (cs : List Char) (w : List Char)
    (ws : List (List Char)) (hc : pyIsSpace c = false) (hd : pyIsSpace d = false)
    (h2 : pyWords (d :: cs) = w :: ws) :
    pyWords (c :: d :: cs) = (c :: w) :: ws := by
  rw [pyWords, if_neg (by simp [hc]), h2]
  simp [hd]

end GPSAtt

namespace GPSAtt

theorem pyWords_words :
    ∀ (l : List Char), ∀ w ∈ pyWords l,
      w ≠ [] ∧ ∀ c ∈ w, pyIsSpace c = false ∧ c ∈ l := by
  intro l
  induction l with
  | nil => intro w hw; simp [pyWords] at hw
  | cons c cs ih =>
    intro w hw
    by_cases hc : pyIsSpace c = true
    · rw [pyWords_cons_sp c cs hc] at hw
      rcases ih w hw with ⟨h1, h2⟩
      exact ⟨h1, fun a ha => ⟨(h2 a ha).1, List.mem_cons_of_mem _ (h2 a ha).2⟩⟩
    · have hc' : pyIsSpace c = false := by simpa using hc
      rcases cs with _ | ⟨d, cs2⟩
      · rw [pyWords_singleton c hc'] at hw
        simp at hw; subst hw
        refine ⟨by simp, ?_⟩
        intro a ha
        simp at ha; subst ha
        exact ⟨hc', by simp⟩
      · by_cases hd : pyIsSpace d = true
        · rw [pyWords_cons_cons_sp c d cs2 hc' hd] at hw
          rcases List.mem_cons.mp hw with rfl | h
          · refine ⟨by simp, ?_⟩
            intro a ha
            simp at ha; subst ha
            exact ⟨hc', by simp⟩
          · rcases ih w h with ⟨h1, h2⟩
            exact ⟨h1, fun a ha => ⟨(h2 a ha).1, List.mem_cons_of_mem _ (h2 a ha).2⟩⟩
        · have hd' : pyIsSpace d = false := by simpa using hd
          rcases h2 : pyWords (d :: cs2) with _ | ⟨w0, ws0⟩
          · exact absurd h2 (pyWords_ne_nil d cs2 hd')
          · rw [pyWords_cons_cons_nsp c d cs2 w0 ws0 hc' hd' h2] at hw
            rcases List.mem_cons.mp hw with rfl | h
            · have hw0 := ih w0 (by rw [h2]; exact List.mem_cons_self _ _)
              refine ⟨by simp, ?_⟩
              intro a ha
              rcases List.mem_cons.mp ha with rfl | ha2
              · exact ⟨hc', by simp⟩
              · exact ⟨(hw0.2 a ha2).1, List.mem_cons_of_mem _ (hw0.2 a ha2).2⟩
            · have h3 := ih w (by rw [h2]; exact List.mem_cons_of_mem _ h)
              exact ⟨h3.1, fun a ha => ⟨(h3.2 a ha).1, List.mem_cons_of_mem _ (h3.2 a ha).2⟩⟩

theorem pyWords_append (w l : List Char) (hne : w ≠ [])
    (hsf : ∀ c ∈ w, pyIsSpace c = false)
    (hl : l = [] ∨ ∃ d l2, l = d :: l2 ∧ pyIsSpace d = true) :
    pyWords (w ++ l) = w :: pyWords l := by
  induction w with
  | nil => exact absurd rfl hne
  | cons c w1 ih =>
    have hc : pyIsSpace c = false := hsf c (List.mem_cons_self _ _)
    rcases w1 with _ | ⟨e, w2⟩
    · rcases hl with rfl | ⟨d, l2, rfl, hd⟩
      · simpa using pyWords_singleton c hc
      · simpa using pyWords_cons_cons_sp c d l2 hc hd
    · have he : pyIsSpace e = false := hsf e (by simp)
      have ih2 := ih (by simp) (fun a ha => hsf a (List.mem_cons_of_mem _ ha))
      have h3 : pyWords (c :: ((e :: w2) ++ l)) = (c :: (e :: w2)) :: pyWords l :=
        pyWords_cons_cons_nsp c e (w2 ++ l) (e :: w2) (pyWords l) hc he ih2
      simpa using h3

theorem pyWords_joinSp (ws : List (List Char))
    (h : ∀ w ∈ ws, w ≠ [] ∧ ∀ c ∈ w, pyIsSpace c = false) :
    pyWords (joinSp ws) = ws := by
  induction ws with
  | nil => rfl
  | cons w ws1 ih =>
    rcases ws1 with _ | ⟨v, vs⟩
    · have hw := h w (List.mem_cons_self _ _)
      have h2 := pyWords_append w [] hw.1 hw.2 (Or.inl rfl)
      simpa [joinSp] using h2
    · have hw := h w (List.mem_cons_self _ _)
      have hjoin : joinSp (w :: v :: vs) = w ++ ' ' :: joinSp (v :: vs) := rfl
      rw [hjoin, pyWords_append w (' ' :: joinSp (v :: vs)) hw.1 hw.2
        (Or.inr ⟨' ', joinSp (v :: vs), rfl, by decide⟩)]
      rw [pyWords_cons_sp ' ' _ (by decide)]
      rw [ih (fun u hu => h u (List.mem_cons_of_mem _ hu))]

theorem mem_joinSp (ws : List (List Char)) (c : Char) (hc : c ∈ joinSp ws) :
    (∃ w ∈ ws, c ∈ w) ∨ c = ' ' := by
  induction ws with
  | nil => simp [joinSp] at hc
  | cons w ws1 ih =>
    rcases ws1 with _ | ⟨v, vs⟩
    · exact Or.inl ⟨w, by simp, by simpa [joinSp] using hc⟩
    · have hjoin : joinSp (w :: v :: vs) = w ++ ' ' :: joinSp (v :: vs) := rfl
      rw [hjoin] at hc
      rcases List.mem_append.mp hc with h | h
      · exact Or.inl ⟨w, by simp, h⟩
      · rcases List.mem_cons.mp h with rfl | h2
        · exact Or.inr rfl
        · rcases ih h2 with ⟨u, hu, hcu⟩ | rfl
          · exact Or.inl ⟨u, List.mem_cons_of_mem _ hu, hcu⟩
          · exact Or.inr rfl

theorem pyWords_map (g : Char → Char)
    (hg : ∀ c, pyIsSpace (g c) = pyIsSpace c) (l : List Char) :
    pyWords (l.map g) = (pyWords l).map (List.map g) := by
  induction l with
  | nil => rfl
  | cons c cs ih =>
    by_cases hc : pyIsSpace c = true
    · rw [List.map_cons, pyWords_cons_sp _ _ (by rw [hg]; exact hc),
        pyWords_cons_sp c cs hc, ih]
    · have hc' : pyIsSpace c = false := by simpa using hc
      have hgc : pyIsSpace (g c) = false := by rw [hg]; exact hc'
      rcases cs with _ | ⟨d, cs2⟩
      · simp [pyWords_singleton _ hgc, pyWords_singleton c hc']
      · by_cases hd : pyIsSpace d = true
        · rw [List.map_cons, List.map_cons,
            pyWords_cons_cons_sp (g c) (g d) (cs2.map g) hgc (by rw [hg]; exact hd),
            pyWords_cons_cons_sp c d cs2 hc' hd]
          have : pyWords (g d :: List.map g cs2) = (pyWords (d :: cs2)).map (List.map g) := by
            rw [← List.map_cons, ih]
          rw [this]
          simp
        · have hd' : pyIsSpace d = false := by simpa using hd
          have hgd : pyIsSpace (g d) = false := by rw [hg]; exact hd'
          rcases h2 : pyWords (d :: cs2) with _ | ⟨w0, ws0⟩
          · exact absurd h2 (pyWords_ne_nil d cs2 hd')
          · have h2g : pyWords (g d :: List.map g cs2) =
                (List.map g w0) :: ws0.map (List.map g) := by
              rw [← List.map_cons, ih, h2]; rfl
            rw [List.map_cons, List.map_cons,
              pyWords_cons_cons_nsp (g c) (g d) (cs2.map g) _ _ hgc hgd h2g,
              pyWords_cons_cons_nsp c d cs2 w0 ws0 hc' hd' h2]
            rfl

theorem joinSp_map (g : Char → Char) (hg : g ' ' = ' ') (ws : List (List Char)) :
    joinSp (ws.map (List.map g)) = (joinSp ws).map g := by
  induction ws with
  | nil => rfl
  | cons w ws1 ih =>
    rcases ws1 with _ | ⟨v, vs⟩
    · rfl
    · have hL : joinSp ((w :: v :: vs).map (List.map g)) =
          List.map g w ++ ' ' :: joinSp ((v :: vs).map (List.map g)) := rfl
      have hR : joinSp (w :: v :: vs) = w ++ ' ' :: joinSp (v :: vs) := rfl
      rw [hL, ih, hR]
      simp [hg]

end GPSAtt

namespace GPSAtt

theorem toNat_ofNat_valid {n : Nat} (h : n < 55296) : (Char.ofNat n).toNat = n := by
  rw [Char.ofNat, dif_pos (Or.inl h)]
  simp [Char.ofNatAux, Char.toNat, UInt32.toNat]

theorem toNat_lc (c : Char) :
    (lc c).toNat = if 65 ≤ c.toNat ∧ c.toNat ≤ 90 then c.toNat + 32 else c.toNat := by
  unfold lc
  by_cases h : 65 ≤ c.toNat ∧ c.toNat ≤ 90
  · rw [if_pos h, if_pos h, toNat_ofNat_valid (by omega)]
  · rw [if_neg h, if_neg h]

theorem sp_lc (c : Char) : pyIsSpace (lc c) = pyIsSpace c := by
  unfold pyIsSpace
  rw [decide_eq_decide]
  rw [toNat_lc]
  by_cases h : 65 ≤ c.toNat ∧ c.toNat ≤ 90
  · rw [if_pos h]; omega
  · rw [if_neg h]

theorem lc_space : lc ' ' = ' ' := by decide

theorem lc_eq_self (c : Char) (h : ¬(65 ≤ c.toNat ∧ c.toNat ≤ 90)) : lc c = c := by
  unfold lc; rw [if_neg h]

theorem lc_idem (c : Char) : lc (lc c) = lc c := by
  by_cases h : 65 ≤ c.toNat ∧ c.toNat ≤ 90
  · apply lc_eq_self
    rw [toNat_lc, if_pos h]
    omega
  · rw [lc_eq_self c h]; exact lc_eq_self c h

theorem toNat_lc_ne_304 (c : Char) (h : c.toNat ≠ 304) : (lc c).toNat ≠ 304 := by
  rw [toNat_lc]
  by_cases h2 : 65 ≤ c.toNat ∧ c.toNat ≤ 90
  · rw [if_pos h2]; omega
  · rw [if_neg h2]; exact h

theorem nameCharOk_lc (c : Char) (h : nameCharOk c = true) (h304 : c.toNat ≠ 304) :
    nameCharOk (lc c) = true := by
  unfold nameCharOk pyIsAlpha pyIsSpace pyPunct at h ⊢
  simp only [Bool.or_eq_true, decide_eq_true_eq] at h ⊢
  rw [toNat_lc]
  by_cases h2 : 65 ≤ c.toNat ∧ c.toNat ≤ 90
  · rw [if_pos h2]; omega
  · rw [if_neg h2]; exact h

theorem pyLowerChar_eq (c : Char) (h : c.toNat ≠ 304) : pyLowerChar c = [lc c] := by
  unfold pyLowerChar lc
  by_cases h2 : 65 ≤ c.toNat ∧ c.toNat ≤ 90
  · rw [if_pos h2, if_pos h2]
  · rw [if_neg h2, if_neg h, if_neg h2]

theorem pyLower_eq_map (l : List Char) (h : ∀ c ∈ l, c.toNat ≠ 304) :
    pyLower l = l.map lc := by
  induction l with
  | nil => rfl
  | cons c cs ih =>
    unfold pyLower
    rw [List.map_cons, List.flatten_cons, pyLowerChar_eq c (h c (by simp))]
    rw [List.map_cons]
    have := ih (fun a ha => h a (List.mem_cons_of_mem _ ha))
    unfold pyLower at this
    rw [this]
    rfl

end GPSAtt

namespace GPSAtt

theorem sanitize_name_some (x y : List Char) (h : sanitize_name x = some y) :
    x ≠ [] ∧ 2 ≤ (joinSp (pyWords x)).length ∧ (joinSp (pyWords x)).length ≤ 100 ∧
    (joinSp (pyWords x)).all nameCharOk = true ∧ y = pyLower (joinSp (pyWords x)) := by
  unfold sanitize_name at h
  by_cases h1 : x = []
  · rw [if_pos h1] at h; exact absurd h (by simp)
  · rw [if_neg h1] at h
    by_cases h2 : (joinSp (pyWords x)).length < 2 ∨ 100 < (joinSp (pyWords x)).length
    · rw [if_pos h2] at h; exact absurd h (by simp)
    · rw [if_neg h2] at h
      push_neg at h2
      by_cases h3 : (joinSp (pyWords x)).all nameCharOk = true
      · rw [if_pos h3] at h
        simp only [Option.some.injEq] at h
        exact ⟨h1, by omega, by omega, h3, h.symm⟩
      · rw [if_neg h3] at h; exact absurd h (by simp)

/-- C9 (amended): name canonicalization is idempotent for every input that
contains no U+0130 (the one character whose Python lowercase mapping
expands to two characters): `canonicalize(canonicalize(x)) = canonicalize(x)`,
so an accepted U+0130-free name is returned unchanged when canonicalized
again, and a rejected input stays rejected (`Option.bind` propagates
`none`). -/
theorem sanitize_name_idempotent (x : List Char) (hx : ∀ c ∈ x, c.toNat ≠ 304) :
    (sanitize_name x).bind sanitize_name = sanitize_name x := by
  cases hs : sanitize_name x with
  | none => rfl
  | some y =>
    show sanitize_name y = some y
    obtain ⟨hxe, hlen2, hlen100, hall, hy⟩ := sanitize_name_some x y hs
    set n := joinSp (pyWords x) with hn
    have h304n : ∀ c ∈ n, c.toNat ≠ 304 := by
      intro c hc
      rcases mem_joinSp _ c hc with ⟨w, hw, hcw⟩ | rfl
      · exact hx c ((pyWords_words x w hw).2 c hcw).2
      · decide
    have hylc : y = n.map lc := by rw [hy, pyLower_eq_map n h304n]
    have hcanon : ∀ w ∈ pyWords x, w ≠ [] ∧ ∀ c ∈ w, pyIsSpace c = false :=
      fun w hw => ⟨(pyWords_words x w hw).1, fun c hc => ((pyWords_words x w hw).2 c hc).1⟩
    have hWn : pyWords n = pyWords x := pyWords_joinSp (pyWords x) hcanon
    have hWy : pyWords y = (pyWords x).map (List.map lc) := by
      rw [hylc, pyWords_map lc sp_lc n, hWn]
    have hJy : joinSp (pyWords y) = y := by
      rw [hWy, joinSp_map lc lc_space (pyWords x), ← hn]
      exact hylc.symm
    have hleny : y.length = n.length := by rw [hylc]; simp
    have hyne : y ≠ [] := by
      intro hcon
      rw [hcon] at hleny
      simp at hleny
      omega
    unfold sanitize_name
    rw [if_neg hyne, hJy]
    rw [if_neg (by omega : ¬(y.length < 2 ∨ 100 < y.length))]
    have hally : y.all nameCharOk = true := by
      rw [List.all_eq_true] at hall ⊢
      intro c hc
      rw [hylc] at hc
      rcases List.mem_map.mp hc with ⟨a, ha, rfl⟩
      exact nameCharOk_lc a (hall a ha) (h304n a ha)
    rw [if_pos hally]
    have h304y : ∀ c ∈ y, c.toNat ≠ 304 := by
      intro c hc
      rw [hylc] at hc
      rcases List.mem_map.mp hc with ⟨a, ha, rfl⟩
      exact toNat_lc_ne_304 a (h304n a ha)
    rw [pyLower_eq_map y h304y]
    have hfinal : y.map lc = y := by
      calc y.map lc = (n.map lc).map lc := by rw [← hylc]
      _ = n.map (fun a => lc (lc a)) := by rw [List.map_map]; rfl
      _ = n.map lc := List.map_congr_left (fun a ha => lc_idem a)
      _ = y := hylc.symm
    rw [hfinal]

/-- C9 counterexample: canonicalization is not idempotent on the program as
written.  The two-character input U+0130, A is accepted (both characters
satisfy `isalpha`, length 2) and canonicalizes to the three characters
i (105), combining dot above (775), a (97) — Python `str.lower` expands
U+0130 — but canonicalizing that output again is rejected, because the
combining dot is neither alphabetic, whitespace, nor allowed punctuation. -/
theorem sanitize_name_idem_counterexample :
    ¬ ((sanitize_name ['İ', 'A']).bind sanitize_name = sanitize_name ['İ', 'A']) ∧
    sanitize_name ['İ', 'A'] = some [Char.ofNat 105, Char.ofNat 775, Char.ofNat 97] ∧
    sanitize_name [Char.ofNat 105, Char.ofNat 775, Char.ofNat 97] = none := by decide

/-- Witness for the amended C9 theorem at the concrete input "John Doe". -/
theorem sanitize_name_idempotent_witness :
    (sanitize_name "John Doe".toList).bind sanitize_name =
      sanitize_name "John Doe".toList :=
  sanitize_name_idempotent _ (by decide)

end GPSAtt

namespace GPSAtt

theorem duplicate_and_commit_never_outOfRange (db1 : DB) (uid : Nat) (loc : Loc)
    (zone : Zone) (d : ℚ) (now : Nat) (ok : Bool) (x : ℚ) :
    (duplicate_and_commit db1 uid loc zone d now ok).2 ≠ AdmissionResult.outOfRange x := by
  unfold duplicate_and_commit
  split
  · simp
  · by_cases hm : (mark_attendance db1 uid loc zone d now ok).2 = true <;> simp [hm]

/-- C2: for every admission attempt that reaches the proximity stage (valid
name, valid image, a location present, freshness passed) against the given
active zone: if the distance computed by the distance calculator is at most
the zone radius the proximity stage passes (the attempt can never fail with
`OutOfRange`), and if it exceeds the radius the attempt fails with
`OutOfRange` carrying exactly the computed distance. -/
theorem proximity_stage_decision (dist : ℚ × ℚ → ℚ × ℚ → ℚ) (db : DB)
    (name : List Char) (img : Option ImgBuffer) (loc : Loc) (locTs : Option Nat)
    (now startT endT : Nat) (zone : Zone) (insertOk : Bool) (sname : List Char)
    (hname : sanitize_name name = some sname)
    (himg : validate_image img = true)
    (hfresh : locationExpired locTs now = false) :
    (dist (zone.latitude, zone.longitude) (loc.latitude, loc.longitude) ≤ zone.radius_meters →
      ∀ x, (process_attendance_marking dist db name img (some loc) locTs now
        startT endT zone insertOk).2 ≠ AdmissionResult.outOfRange x) ∧
    (zone.radius_meters < dist (zone.latitude, zone.longitude) (loc.latitude, loc.longitude) →
      (process_attendance_marking dist db name img (some loc) locTs now
        startT endT zone insertOk).2 =
        AdmissionResult.outOfRange
          (dist (zone.latitude, zone.longitude) (loc.latitude, loc.longitude))) := by
  simp only [process_attendance_marking, hname, himg, hfresh, is_within_zone]
  constructor
  · intro hle x
    rw [if_neg (by simp), if_neg (by simp), if_neg (by simp [hle])]
    by_cases hw : ¬(startT ≤ now % 86400 ∧ now % 86400 ≤ endT)
    · rw [if_pos hw]; simp
    · rw [if_neg hw]
      exact duplicate_and_commit_never_outOfRange _ _ _ _ _ _ _ _
  · intro hgt
    rw [if_neg (by simp), if_neg (by simp),
      if_pos (by simp [not_le.mpr hgt])]

/-- Witness for C2 at a concrete input: the zero distance function, the
initial database, name "ab", a valid image, a location, no stored
timestamp. -/
theorem proximity_stage_decision_witness :
    ((fun (_ _ : ℚ × ℚ) => (0 : ℚ)) (10.678922, 77.032420) (0, 0) ≤ (5500 : ℚ) →
      ∀ x, (process_attendance_marking (fun _ _ => 0) initDB "ab".toList
        (some ⟨1, true, 640, 480⟩) (some ⟨0, 0, 0⟩) none 29000
        28800 64800 ⟨1, [], 10.678922, 77.032420, 5500, true, 0⟩ true).2 ≠
          AdmissionResult.outOfRange x) ∧
    ((5500 : ℚ) < (fun (_ _ : ℚ × ℚ) => (0 : ℚ)) (10.678922, 77.032420) (0, 0) →
      (process_attendance_marking (fun _ _ => 0) initDB "ab".toList
        (some ⟨1, true, 640, 480⟩) (some ⟨0, 0, 0⟩) none 29000
        28800 64800 ⟨1, [], 10.678922, 77.032420, 5500, true, 0⟩ true).2 =
        AdmissionResult.outOfRange
          ((fun (_ _ : ℚ × ℚ) => (0 : ℚ)) (10.678922, 77.032420) (0, 0))) :=
  proximity_stage_decision (fun _ _ => 0) initDB "ab".toList
    (some ⟨1, true, 640, 480⟩) ⟨0, 0, 0⟩ none 29000 28800 64800
    ⟨1, [], 10.678922, 77.032420, 5500, true, 0⟩ true ['a', 'b']
    (by decide) (by decide) rfl

end GPSAtt

namespace GPSAtt

theorem find?_eq_some_of_unique {α : Type} (p : α → Bool) (l : List α) (a : α)
    (ha : a ∈ l) (hpa : p a = true) (huniq : ∀ b ∈ l, p b = true → b = a) :
    l.find? p = some a := by
  induction l with
  | nil => simp at ha
  | cons x xs ih =>
    by_cases hx : p x = true
    · rw [List.find?_cons_of_pos _ hx, huniq x (List.mem_cons_self x xs) hx]
    · rw [List.find?_cons_of_neg _ (by simpa using hx)]
      rcases List.mem_cons.mp ha with rfl | h
      · exact absurd hpa hx
      · exact ih h (fun b hb hpb => huniq b (List.mem_cons_of_mem _ hb) hpb)

/-- C3: an admission attempt that reaches the duplicate check (valid name,
valid image, location present, fresh, within the zone, inside the time
window) by an identity `u` that already has a PresenceRecord `r` for the
current date fails with `AlreadyRecorded` carrying the existing record's
time, and leaves the database — in particular the attendance table —
entirely unchanged.  The uniqueness hypotheses are the `users.name` and
`attendance(user_id, date)` UNIQUE constraints of src/db.py. -/
theorem duplicate_day_already_recorded (dist : ℚ × ℚ → ℚ × ℚ → ℚ) (db : DB)
    (name : List Char) (img : Option ImgBuffer) (loc : Loc) (locTs : Option Nat)
    (now startT endT : Nat) (zone : Zone) (insertOk : Bool)
    (sname : List Char) (u : User) (r : AttRecord)
    (hname : sanitize_name name = some sname)
    (himg : validate_image img = true)
    (hfresh : locationExpired locTs now = false)
    (hwithin : dist (zone.latitude, zone.longitude) (loc.latitude, loc.longitude) ≤
      zone.radius_meters)
    (hwindow : startT ≤ now % 86400 ∧ now % 86400 ≤ endT)
    (hnames : (db.users.map (fun v => v.name)).Nodup)
    (hkeys : (db.attendance.map (fun s => (s.user_id, s.date))).Nodup)
    (hu : u ∈ db.users) (hun : u.name = sname)
    (hr : r ∈ db.attendance) (hru : r.user_id = u.id) (hrd : r.date = now / 86400) :
    process_attendance_marking dist db name img (some loc) locTs now startT endT
      zone insertOk = (db, AdmissionResult.alreadyRecorded r.time) := by
  have hfindu : db.users.find? (fun v => decide (v.name = sname)) = some u := by
    apply find?_eq_some_of_unique _ _ u hu (by simp [hun])
    intro b hb hpb
    simp only [decide_eq_true_eq] at hpb
    exact List.inj_on_of_nodup_map hnames hb hu (by rw [hpb, hun])
  have hfindr : db.attendance.find?
      (fun s => decide (s.user_id = u.id ∧ s.date = now / 86400)) = some r := by
    apply find?_eq_some_of_unique _ _ r hr (by simp [hru, hrd])
    intro b hb hpb
    simp only [decide_eq_true_eq] at hpb
    exact List.inj_on_of_nodup_map hkeys hb hr
      (by rw [hpb.1, hpb.2, hru, hrd])
  simp only [process_attendance_marking, hname, himg, hfresh, is_within_zone]
  rw [if_neg (by simp), if_neg (by simp), if_neg (by simp [hwithin]),
    if_neg (by simp [hwindow.1, hwindow.2])]
  unfold get_or_create_user
  rw [hfindu]
  unfold duplicate_and_commit
  simp only
  rw [hfindr]

/-- Witness for C3: a database with one user "ab" (id 1) holding a Present
record for day 0 at time 100; the repeated attempt on day 0 is rejected
with that time and the state is unchanged. -/
theorem duplicate_day_already_recorded_witness :
    process_attendance_marking (fun _ _ => 0)
      ⟨[], [⟨1, ['a', 'b'], true⟩], [⟨1, 0, 100, AttStatus.Present, 0, 0, 0, 1, 0⟩], 1, 2⟩
      "ab".toList (some ⟨1, true, 640, 480⟩) (some ⟨0, 0, 0⟩) none 29000 28800 64800
      ⟨1, [], 0, 0, 5500, true, 0⟩ true =
    (⟨[], [⟨1, ['a', 'b'], true⟩], [⟨1, 0, 100, AttStatus.Present, 0, 0, 0, 1, 0⟩], 1, 2⟩,
      AdmissionResult.alreadyRecorded 100) :=
  duplicate_day_already_recorded (fun _ _ => 0)
    ⟨[], [⟨1, ['a', 'b'], true⟩], [⟨1, 0, 100, AttStatus.Present, 0, 0, 0, 1, 0⟩], 1, 2⟩
    "ab".toList (some ⟨1, true, 640, 480⟩) ⟨0, 0, 0⟩ none 29000 28800 64800
    ⟨1, [], 0, 0, 5500, true, 0⟩ true ['a', 'b']
    ⟨1, ['a', 'b'], true⟩ ⟨1, 0, 100, AttStatus.Present, 0, 0, 0, 1, 0⟩
    (by decide) (by decide) rfl (by norm_num) (by decide) (by decide) (by decide)
    (List.mem_cons_self _ _) rfl (List.mem_cons_self _ _) rfl rfl

end GPSAtt

namespace GPSAtt

theorem mark_attendance_fail_state (db : DB) (uid : Nat) (loc : Loc) (zone : Zone)
    (d : ℚ) (now : Nat) (ok : Bool)
    (h : (mark_attendance db uid loc zone d now ok).2 = false) :
    (mark_attendance db uid loc zone d now ok).1 = db := by
  unfold mark_attendance at h ⊢
  by_cases hc : (ok && db.attendance.all
      (fun r => decide (¬(r.user_id = uid ∧ r.date = now / 86400)))) = true
  · rw [if_pos hc] at h
    simp at h
  · rw [if_neg hc]

theorem duplicate_and_commit_reject_state (db1 : DB) (uid : Nat) (loc : Loc)
    (zone : Zone) (d : ℚ) (now : Nat) (ok : Bool)
    (h : ∀ t dd, (duplicate_and_commit db1 uid loc zone d now ok).2 ≠
      AdmissionResult.success t dd) :
    (duplicate_and_commit db1 uid loc zone d now ok).1 = db1 := by
  unfold duplicate_and_commit at h ⊢
  cases hf : db1.attendance.find?
      (fun r => decide (r.user_id = uid ∧ r.date = now / 86400)) with
  | some r => rfl
  | none =>
    by_cases hm : (mark_attendance db1 uid loc zone d now ok).2 = true
    · exfalso
      apply h (now % 86400) d
      rw [hf]
      simp [hm]
    · simp only [Bool.not_eq_true] at hm
      simp only [hm, Bool.false_eq_true, if_false]
      exact mark_attendance_fail_state db1 uid loc zone d now ok hm

theorem get_or_create_user_state (db : DB) (sname : List Char) :
    (get_or_create_user db sname).1 = db ∨
      (get_or_create_user db sname).1 =
        { db with users := db.users ++ [⟨db.nextUserId, sname, true⟩],
                  nextUserId := db.nextUserId + 1 } := by
  unfold get_or_create_user
  split
  · exact Or.inl rfl
  · exact Or.inr rfl

/-- C5 (amended): an admission attempt whose result is not `success`
leaves the attendance table and the zone table (in particular every zone's
activation flag) unchanged; the users table is either unchanged or — when
the rejection happens at the commit stage after a previously-unseen name
was resolved — extended by exactly the one new Identity row that the
pipeline committed before the duplicate check (src/main1.py:1020-1024). -/
theorem rejected_attempt_effects (dist : ℚ × ℚ → ℚ × ℚ → ℚ) (db : DB)
    (name : List Char) (img : Option ImgBuffer) (location : Option Loc)
    (locTs : Option Nat) (now startT endT : Nat) (zone : Zone) (insertOk : Bool)
    (h : ∀ t d, (process_attendance_marking dist db name img location locTs now
      startT endT zone insertOk).2 ≠ AdmissionResult.success t d) :
    (process_attendance_marking dist db name img location locTs now startT endT
      zone insertOk).1.attendance = db.attendance ∧
    (process_attendance_marking dist db name img location locTs now startT endT
      zone insertOk).1.zones = db.zones ∧
    ((process_attendance_marking dist db name img location locTs now startT endT
        zone insertOk).1.users = db.users ∨
      ∃ sname, sanitize_name name = some sname ∧
        (process_attendance_marking dist db name img location locTs now startT endT
          zone insertOk).1.users = db.users ++ [⟨db.nextUserId, sname, true⟩]) := by
  unfold process_attendance_marking at h ⊢
  cases hs : sanitize_name name with
  | none => exact ⟨rfl, rfl, Or.inl rfl⟩
  | some sname =>
    rw [hs] at h
    simp only at h ⊢
    by_cases h1 : validate_image img = false
    · rw [if_pos h1]; exact ⟨rfl, rfl, Or.inl rfl⟩
    · rw [if_neg h1] at h ⊢
      cases location with
      | none => exact ⟨rfl, rfl, Or.inl rfl⟩
      | some loc =>
        simp only at h ⊢
        by_cases h2 : locationExpired locTs now = true
        · rw [if_pos h2]; exact ⟨rfl, rfl, Or.inl rfl⟩
        · rw [if_neg h2] at h ⊢
          by_cases h3 : (is_within_zone dist loc zone).1 = false
          · rw [if_pos h3]; exact ⟨rfl, rfl, Or.inl rfl⟩
          · rw [if_neg h3] at h ⊢
            by_cases h4 : ¬(startT ≤ now % 86400 ∧ now % 86400 ≤ endT)
            · rw [if_pos h4]; exact ⟨rfl, rfl, Or.inl rfl⟩
            · rw [if_neg h4] at h ⊢
              have hdac := duplicate_and_commit_reject_state
                (get_or_create_user db sname).1 (get_or_create_user db sname).2
                loc zone (is_within_zone dist loc zone).2 now insertOk h
              rw [hdac]
              rcases get_or_create_user_state db sname with hg | hg <;> rw [hg]
              · exact ⟨rfl, rfl, Or.inl rfl⟩
              · exact ⟨rfl, rfl, Or.inr ⟨sname, rfl, rfl⟩⟩

end GPSAtt

namespace GPSAtt

/-- C5 counterexample: a rejected attempt that does change the store.  A
first-time name with every validation stage passing whose commit-stage
INSERT fails is rejected (`markFailed`, the source's "Failed to mark
attendance" branch), yet the new Identity row committed at
src/main1.py:1020-1024 remains visible. -/
theorem rejected_attempt_side_effect_counterexample :
    (process_attendance_marking (fun _ _ => 0) initDB "ab".toList
      (some ⟨1, true, 640, 480⟩) (some ⟨0, 0, 0⟩) none 29000 28800 64800
      ⟨1, [], 0, 0, 5500, true, 0⟩ false).2 = AdmissionResult.markFailed ∧
    ¬ ((process_attendance_marking (fun _ _ => 0) initDB "ab".toList
      (some ⟨1, true, 640, 480⟩) (some ⟨0, 0, 0⟩) none 29000 28800 64800
      ⟨1, [], 0, 0, 5500, true, 0⟩ false).1.users = initDB.users) := by decide

/-- Witness for the amended C5 theorem at a concrete rejected attempt (the
invalid one-letter name "J"). -/
theorem rejected_attempt_effects_witness :
    (process_attendance_marking (fun _ _ => 0) initDB "J".toList
      (some ⟨1, true, 640, 480⟩) (some ⟨0, 0, 0⟩) none 29000 28800 64800
      ⟨1, [], 0, 0, 5500, true, 0⟩ true).1.attendance = initDB.attendance ∧
    (process_attendance_marking (fun _ _ => 0) initDB "J".toList
      (some ⟨1, true, 640, 480⟩) (some ⟨0, 0, 0⟩) none 29000 28800 64800
      ⟨1, [], 0, 0, 5500, true, 0⟩ true).1.zones = initDB.zones ∧
    ((process_attendance_marking (fun _ _ => 0) initDB "J".toList
        (some ⟨1, true, 640, 480⟩) (some ⟨0, 0, 0⟩) none 29000 28800 64800
        ⟨1, [], 0, 0, 5500, true, 0⟩ true).1.users = initDB.users ∨
      ∃ sname, sanitize_name "J".toList = some sname ∧
        (process_attendance_marking (fun _ _ => 0) initDB "J".toList
          (some ⟨1, true, 640, 480⟩) (some ⟨0, 0, 0⟩) none 29000 28800 64800
          ⟨1, [], 0, 0, 5500, true, 0⟩ true).1.users =
            initDB.users ++ [⟨initDB.nextUserId, sname, true⟩]) :=
  rejected_attempt_effects (fun _ _ => 0) initDB "J".toList
    (some ⟨1, true, 640, 480⟩) (some ⟨0, 0, 0⟩) none 29000 28800 64800
    ⟨1, [], 0, 0, 5500, true, 0⟩ true
    (by
      intro t d
      have hres : (process_attendance_marking (fun _ _ => 0) initDB "J".toList
          (some ⟨1, true, 640, 480⟩) (some ⟨0, 0, 0⟩) none 29000 28800 64800
          ⟨1, [], 0, 0, 5500, true, 0⟩ true).2 = AdmissionResult.invalidName := by
        decide
      rw [hres]
      simp)

/-- C6 (amended): `activate_zone` invoked with an id that exists in no
zone row does not fail with NotFound: it reports success and leaves every
zone deactivated, because the unconditional
`UPDATE location_zones SET is_active = 0` has already run and the second
UPDATE matches no row (src/main1.py:263-281). -/
theorem activate_zone_missing_id (db : DB) (zid now : Nat)
    (h : ∀ z ∈ db.zones, z.id ≠ zid) :
    (activate_zone db zid now).2 = true ∧
    ∀ z ∈ (activate_zone db zid now).1.zones, z.is_active = false := by
  refine ⟨rfl, ?_⟩
  intro z hz
  unfold activate_zone at hz
  simp only [List.map_map] at hz
  rcases List.mem_map.mp hz with ⟨z0, hz0, rfl⟩
  simp only [Function.comp_apply]
  rw [if_neg (h z0 hz0)]

/-- C6 counterexample: in the freshly initialized database exactly one
zone (the campus zone) is active; activating the nonexistent id 99
reports success — not a NotFound failure — and flips the active zone's
flag off, leaving zero active zones. -/
theorem activate_zone_missing_id_counterexample :
    (activate_zone initDB 99 0).2 = true ∧
    initDB.zones.countP (fun z => z.is_active) = 1 ∧
    (activate_zone initDB 99 0).1.zones.countP (fun z => z.is_active) = 0 := by
  decide

/-- Witness for the amended C6 theorem: activating id 99 on the initial
database. -/
theorem activate_zone_missing_id_witness :
    (activate_zone initDB 99 0).2 = true ∧
    ∀ z ∈ (activate_zone initDB 99 0).1.zones, z.is_active = false :=
  activate_zone_missing_id initDB 99 0 (by decide)

/-- Models the commit-time race of spec §5 on the stage functions of
`process_attendance_marking`: `concurrent` lists the PresenceRecords
committed by other attempts between this attempt's duplicate check (which
reads `db1`) and its own INSERT (which executes against `db1` plus
`concurrent`). -/
def duplicate_and_commit_raced (db1 : DB) (uid : Nat) (loc : Loc) (zone : Zone)
    (d : ℚ) (now : Nat) (concurrent : List AttRecord) (insertOk : Bool) :
    DB × AdmissionResult :=
  match db1.attendance.find?
      (fun r => decide (r.user_id = uid ∧ r.date = now / 86400)) with
  | some r => (db1, AdmissionResult.alreadyRecorded r.time)
  | none =>
    let m := mark_attendance { db1 with attendance := db1.attendance ++ concurrent }
      uid loc zone d now insertOk
    if m.2 then (m.1, AdmissionResult.success (now % 86400) d)
    else (m.1, AdmissionResult.markFailed)

/-- C7: when the commit-stage INSERT hits the `UNIQUE(user_id, date)`
constraint (a record for the same identity and date was committed between
the duplicate check and the INSERT), the pipeline reports the generic
commit failure (`markFailed`, the source's "Failed to mark attendance"
message, i.e. a PersistenceFailure), never `AlreadyRecorded`:
`mark_attendance` catches every exception uniformly and returns False
(src/main1.py:349-351), and the caller maps False to the generic message
(src/main1.py:1070-1071). -/
theorem commit_constraint_violation_reported_generic :
    (duplicate_and_commit_raced ⟨[], [⟨1, ['a', 'b'], true⟩], [], 1, 2⟩ 1 ⟨0, 0, 0⟩
      ⟨1, [], 0, 0, 5500, true, 0⟩ 0 29000
      [⟨1, 0, 50, AttStatus.Present, 0, 0, 0, 1, 0⟩] true).2 =
      AdmissionResult.markFailed ∧
    ∀ t, ¬ ((duplicate_and_commit_raced ⟨[], [⟨1, ['a', 'b'], true⟩], [], 1, 2⟩ 1
      ⟨0, 0, 0⟩ ⟨1, [], 0, 0, 5500, true, 0⟩ 0 29000
      [⟨1, 0, 50, AttStatus.Present, 0, 0, 0, 1, 0⟩] true).2 =
        AdmissionResult.alreadyRecorded t) := by
  constructor
  · decide
  · intro t
    have hres : (duplicate_and_commit_raced ⟨[], [⟨1, ['a', 'b'], true⟩], [], 1, 2⟩ 1
        ⟨0, 0, 0⟩ ⟨1, [], 0, 0, 5500, true, 0⟩ 0 29000
        [⟨1, 0, 50, AttStatus.Present, 0, 0, 0, 1, 0⟩] true).2 =
          AdmissionResult.markFailed := by decide
    rw [hres]
    simp

/-- C4: the freshness stage does not reject every stale reading.  The
source computes `(now - location_timestamp).seconds / 60`
(src/main1.py:986): Python `timedelta.seconds` wraps modulo one day, so a
reading 86520 seconds old (1 day 2 minutes, far beyond the 300-second
window) yields an elapsed value of 2 minutes and the attempt is admitted,
while a 600-second-old reading (the spec's 10-minute scenario) is
correctly rejected. -/
theorem freshness_wraparound_bug :
    300 < 202800 - 116280 ∧
    freshnessExpired 202800 116280 = false ∧
    freshnessExpired 202800 202200 = true ∧
    (process_attendance_marking (fun _ _ => 0) initDB "ab".toList
        (some ⟨1, true, 640, 480⟩) (some ⟨0, 0, 0⟩) (some 116280)
        202800 28800 64800 ⟨1, [], 0, 0, 5500, true, 0⟩ true).2 =
      AdmissionResult.success 30000 0 := by
  have h1 : freshnessExpired 202800 116280 = false := by
    rw [freshnessExpired, decide_eq_false_iff_not, elapsedMinutes]
    norm_num
  have h2 : freshnessExpired 202800 202200 = true := by
    rw [freshnessExpired, decide_eq_true_eq, elapsedMinutes]
    norm_num
  refine ⟨by norm_num, h1, h2, ?_⟩
  have hloc : locationExpired (some 116280) 202800 = false := h1
  have hs : sanitize_name "ab".toList = some ['a', 'b'] := by decide
  simp only [process_attendance_marking, hs, hloc]
  decide

end GPSAtt

namespace GPSAtt

/-- C8: for every database state and date, `stats` returns
`total` = the number of active identities, `present` = the number of
distinct identities holding a Present record on that date (stated as the
cardinality of the set of such identity ids), `absent = total - present`,
`rate = present/total * 100` with `rate = 0` when `total = 0`; and
consequently `present + absent = total`. -/
theorem stats_equations (db : DB) (date : Nat) :
    (get_attendance_stats db date).total =
      (db.users.filter (fun u => u.is_active)).length ∧
    (get_attendance_stats db date).present =
      (((db.attendance.filter
          (fun r => decide (r.date = date ∧ r.status = AttStatus.Present))).map
        (fun r => r.user_id)).toFinset).card ∧
    (get_attendance_stats db date).absent =
      ((get_attendance_stats db date).total : ℤ) -
        ((get_attendance_stats db date).present : ℤ) ∧
    (get_attendance_stats db date).rate =
      (if (get_attendance_stats db date).total = 0 then 0
       else ((get_attendance_stats db date).present : ℚ) /
         ((get_attendance_stats db date).total : ℚ) * 100) ∧
    ((get_attendance_stats db date).present : ℤ) + (get_attendance_stats db date).absent =
      ((get_attendance_stats db date).total : ℤ) := by
  have hT : (get_attendance_stats db date).total =
      db.users.countP (fun u => u.is_active) := rfl
  have hP : (get_attendance_stats db date).present =
      (((db.attendance.filter
          (fun r => decide (r.date = date ∧ r.status = AttStatus.Present))).map
        (fun r => r.user_id)).dedup).length := rfl
  have hA : (get_attendance_stats db date).absent =
      ((get_attendance_stats db date).total : ℤ) -
        ((get_attendance_stats db date).present : ℤ) := rfl
  have hR : (get_attendance_stats db date).rate =
      (if 0 < (get_attendance_stats db date).total
       then ((get_attendance_stats db date).present : ℚ) /
         ((get_attendance_stats db date).total : ℚ) * 100
       else 0) := rfl
  refine ⟨?_, ?_, hA, ?_, ?_⟩
  · rw [hT, List.countP_eq_length_filter]
  · rw [hP]
    exact (List.card_toFinset _).symm
  · rw [hR]
    by_cases h : (get_attendance_stats db date).total = 0
    · rw [if_pos h, if_neg (by omega)]
    · rw [if_neg h, if_pos (by omega)]
  · rw [hA]
    omega

end GPSAtt

namespace GPSAtt

/-- Auxiliary invariant of the zone table: distinct ids, ids below the
autoincrement counter, and at most one active zone. -/
def zoneInv (db : DB) : Prop :=
  (db.zones.map (fun z => z.id)).Nodup ∧
  (∀ z ∈ db.zones, z.id < db.nextZoneId) ∧
  db.zones.countP (fun z => z.is_active) ≤ 1

theorem countP_deactivateAll (zs : List Zone) :
    (zs.map (fun z => { z with is_active := false })).countP
      (fun z => z.is_active) = 0 := by
  rw [List.countP_eq_zero]
  intro z hz
  rcases List.mem_map.mp hz with ⟨z0, _, rfl⟩
  simp

theorem countP_key_le_one (zs : List Zone)
    (hn : (zs.map (fun z => z.id)).Nodup) (k : Nat) :
    zs.countP (fun z => decide (z.id = k)) ≤ 1 := by
  induction zs with
  | nil => simp
  | cons x xs ih =>
    rw [List.map_cons, List.nodup_cons] at hn
    rw [List.countP_cons]
    by_cases h : x.id = k
    · have hz : xs.countP (fun z => decide (z.id = k)) = 0 := by
        rw [List.countP_eq_zero]
        intro a ha
        simp only [decide_eq_true_eq]
        intro hak
        have hm : a.id ∈ xs.map (fun z => z.id) := List.mem_map_of_mem _ ha
        rw [hak, ← h] at hm
        exact hn.1 hm
      simp [h, hz]
    · simpa [h] using ih hn.2

theorem nodup_ids_map (zs : List Zone) (f : Zone → Zone)
    (hf : ∀ z, (f z).id = z.id) (hn : (zs.map (fun z => z.id)).Nodup) :
    ((zs.map f).map (fun z => z.id)).Nodup := by
  rw [List.map_map]
  have h2 : zs.map ((fun z => z.id) ∘ f) = zs.map (fun z => z.id) :=
    List.map_congr_left (fun z _ => hf z)
  rw [h2]
  exact hn

theorem bound_ids_map (zs : List Zone) (f : Zone → Zone)
    (hf : ∀ z, (f z).id = z.id) (n : Nat) (hb : ∀ z ∈ zs, z.id < n) :
    ∀ z ∈ zs.map f, z.id < n := by
  intro z hz
  rcases List.mem_map.mp hz with ⟨z0, hz0, rfl⟩
  rw [hf]
  exact hb z0 hz0

theorem zoneInv_create (db : DB) (name : List Char) (lat lon radius : ℚ)
    (sa : Bool) (now : Nat) (ok : Bool) (h : zoneInv db) :
    zoneInv (create_zone db name lat lon radius sa now ok).1 := by
  obtain ⟨hn, hb, hc⟩ := h
  have hids : ((db.zones.map (fun z => { z with is_active := false })).map
      (fun z => z.id)) = db.zones.map (fun z => z.id) := by
    rw [List.map_map]
    rfl
  unfold create_zone
  cases ok with
  | false =>
    cases sa with
    | false => exact ⟨hn, hb, hc⟩
    | true =>
      refine ⟨?_, ?_, ?_⟩
      · show ((db.zones.map (fun z => { z with is_active := false })).map
          (fun z => z.id)).Nodup
        rw [hids]
        exact hn
      · show ∀ z ∈ db.zones.map (fun z => { z with is_active := false }),
          z.id < db.nextZoneId
        intro z hz
        rcases List.mem_map.mp hz with ⟨z0, hz0, rfl⟩
        exact hb z0 hz0
      · show (db.zones.map (fun z => { z with is_active := false })).countP
          (fun z => z.is_active) ≤ 1
        rw [countP_deactivateAll]
        omega
  | true =>
    cases sa with
    | false =>
      refine ⟨?_, ?_, ?_⟩
      · show ((db.zones ++
          [(⟨db.nextZoneId, name, lat, lon, radius, false, now⟩ : Zone)]).map
            (fun z => z.id)).Nodup
        rw [List.map_append, List.nodup_append]
        refine ⟨hn, by simp, ?_⟩
        intro a ha
        rcases List.mem_map.mp ha with ⟨z0, hz0, rfl⟩
        simp only [List.map_cons, List.map_nil, List.mem_singleton]
        have := hb z0 hz0
        omega
      · show ∀ (z : Zone), z ∈ db.zones ++
            [(⟨db.nextZoneId, name, lat, lon, radius, false, now⟩ : Zone)] →
          z.id < db.nextZoneId + 1
        intro z hz
        rcases List.mem_append.mp hz with hz | hz
        · have := hb z hz
          omega
        · simp at hz
          rw [hz]
          exact Nat.lt_succ_self _
      · show (db.zones ++
          [(⟨db.nextZoneId, name, lat, lon, radius, false, now⟩ : Zone)]).countP
            (fun z => z.is_active) ≤ 1
        rw [List.countP_append]
        have hone : List.countP (fun z => z.is_active)
            [(⟨db.nextZoneId, name, lat, lon, radius, false, now⟩ : Zone)] = 0 := by
          simp
        omega
    | true =>
      refine ⟨?_, ?_, ?_⟩
      · show (((db.zones.map (fun z : Zone => { z with is_active := false })) ++
          [(⟨db.nextZoneId, name, lat, lon, radius, true, now⟩ : Zone)]).map
            (fun z : Zone => z.id)).Nodup
        rw [List.map_append, hids, List.nodup_append]
        refine ⟨hn, by simp, ?_⟩
        intro a ha
        rcases List.mem_map.mp ha with ⟨z0, hz0, rfl⟩
        simp only [List.map_cons, List.map_nil, List.mem_singleton]
        have := hb z0 hz0
        omega
      · show ∀ (z : Zone), z ∈
            (db.zones.map (fun z : Zone => { z with is_active := false })) ++
            [(⟨db.nextZoneId, name, lat, lon, radius, true, now⟩ : Zone)] →
          z.id < db.nextZoneId + 1
        intro z hz
        rcases List.mem_append.mp hz with hz | hz
        · rcases List.mem_map.mp hz with ⟨z0, hz0, rfl⟩
          have := hb z0 hz0
          simp only
          omega
        · simp at hz
          rw [hz]
          exact Nat.lt_succ_self _
      · show ((db.zones.map (fun z : Zone => { z with is_active := false })) ++
          [(⟨db.nextZoneId, name, lat, lon, radius, true, now⟩ : Zone)]).countP
            (fun z : Zone => z.is_active) ≤ 1
        rw [List.countP_append, countP_deactivateAll]
        have hone : List.countP (fun z => z.is_active)
            [(⟨db.nextZoneId, name, lat, lon, radius, true, now⟩ : Zone)] ≤ 1 := by
          simp [List.countP_cons]
        omega

theorem zoneInv_activate (db : DB) (zid now : Nat) (h : zoneInv db) :
    zoneInv (activate_zone db zid now).1 := by
  obtain ⟨hn, hb, hc⟩ := h
  have hact : ∀ w : Zone,
      ((if w.id = zid then { w with is_active := true, updated_at := now }
        else w)).id = w.id := by
    intro w
    by_cases hw : w.id = zid <;> simp [hw]
  unfold activate_zone
  refine ⟨?_, ?_, ?_⟩
  · exact nodup_ids_map _ _ hact
      (nodup_ids_map db.zones (fun z => { z with is_active := false })
        (fun z => rfl) hn)
  · exact bound_ids_map _ _ hact _
      (bound_ids_map db.zones (fun z => { z with is_active := false })
        (fun z => rfl) db.nextZoneId hb)
  · rw [List.countP_map]
    have h2 : (db.zones.map (fun z => { z with is_active := false })).countP
        ((fun z => z.is_active) ∘ (fun z =>
          if z.id = zid then { z with is_active := true, updated_at := now }
          else z)) =
        (db.zones.map (fun z => { z with is_active := false })).countP
          (fun w => decide (w.id = zid)) := by
      apply List.countP_congr
      intro w hw
      have hwa : w.is_active = false := by
        rcases List.mem_map.mp hw with ⟨z0, hz0, rfl⟩
        rfl
      by_cases hk : w.id = zid
      · simp [Function.comp, hk]
      · simp [Function.comp, hk, hwa]
    rw [h2, List.countP_map]
    have h3 : db.zones.countP ((fun w => decide (w.id = zid)) ∘
        (fun z => { z with is_active := false })) =
        db.zones.countP (fun z => decide (z.id = zid)) := by
      apply List.countP_congr
      intro z hz
      simp [Function.comp]
    rw [h3]
    exact countP_key_le_one db.zones hn zid

end GPSAtt

namespace GPSAtt

theorem mark_attendance_zones (db : DB) (uid : Nat) (loc : Loc) (zone : Zone)
    (d : ℚ) (now : Nat) (ok : Bool) :
    (mark_attendance db uid loc zone d now ok).1.zones = db.zones ∧
    (mark_attendance db uid loc zone d now ok).1.nextZoneId = db.nextZoneId := by
  unfold mark_attendance
  split <;> exact ⟨rfl, rfl⟩

theorem get_or_create_user_zones (db : DB) (sname : List Char) :
    (get_or_create_user db sname).1.zones = db.zones ∧
    (get_or_create_user db sname).1.nextZoneId = db.nextZoneId := by
  rcases get_or_create_user_state db sname with hg | hg <;> rw [hg] <;> exact ⟨rfl, rfl⟩

theorem duplicate_and_commit_zones (db1 : DB) (uid : Nat) (loc : Loc)
    (zone : Zone) (d : ℚ) (now : Nat) (ok : Bool) :
    (duplicate_and_commit db1 uid loc zone d now ok).1.zones = db1.zones ∧
    (duplicate_and_commit db1 uid loc zone d now ok).1.nextZoneId = db1.nextZoneId := by
  unfold duplicate_and_commit
  cases hf : db1.attendance.find?
      (fun r => decide (r.user_id = uid ∧ r.date = now / 86400)) with
  | some r => exact ⟨rfl, rfl⟩
  | none =>
    by_cases hm : (mark_attendance db1 uid loc zone d now ok).2 = true
    · simp only [hm, if_true]
      exact mark_attendance_zones db1 uid loc zone d now ok
    · simp only [Bool.not_eq_true] at hm
      simp only [hm, Bool.false_eq_true, if_false]
      exact mark_attendance_zones db1 uid loc zone d now ok

theorem process_zones (dist : ℚ × ℚ → ℚ × ℚ → ℚ) (db : DB) (name : List Char)
    (img : Option ImgBuffer) (location : Option Loc) (locTs : Option Nat)
    (now startT endT : Nat) (zone : Zone) (insertOk : Bool) :
    (process_attendance_marking dist db name img location locTs now startT endT
      zone insertOk).1.zones = db.zones ∧
    (process_attendance_marking dist db name img location locTs now startT endT
      zone insertOk).1.nextZoneId = db.nextZoneId := by
  unfold process_attendance_marking
  cases hs : sanitize_name name with
  | none => exact ⟨rfl, rfl⟩
  | some sname =>
    simp only
    by_cases h1 : validate_image img = false
    · rw [if_pos h1]; exact ⟨rfl, rfl⟩
    · rw [if_neg h1]
      cases location with
      | none => exact ⟨rfl, rfl⟩
      | some loc =>
        simp only
        by_cases h2 : locationExpired locTs now = true
        · rw [if_pos h2]; exact ⟨rfl, rfl⟩
        · rw [if_neg h2]
          by_cases h3 : (is_within_zone dist loc zone).1 = false
          · rw [if_pos h3]; exact ⟨rfl, rfl⟩
          · rw [if_neg h3]
            by_cases h4 : ¬(startT ≤ now % 86400 ∧ now % 86400 ≤ endT)
            · rw [if_pos h4]; exact ⟨rfl, rfl⟩
            · rw [if_neg h4]
              have hd := duplicate_and_commit_zones (get_or_create_user db sname).1
                (get_or_create_user db sname).2 loc zone
                (is_within_zone dist loc zone).2 now insertOk
              have hg := get_or_create_user_zones db sname
              exact ⟨hd.1.trans hg.1, hd.2.trans hg.2⟩

theorem zoneInv_initDB : zoneInv initDB := by
  refine ⟨by decide, by decide, by decide⟩

theorem zoneInv_reach (dist : ℚ × ℚ → ℚ × ℚ → ℚ) (db : DB)
    (h : Reach dist db) : zoneInv db := by
  induction h with
  | init => exact zoneInv_initDB
  | createZone db name lat lon radius sa now ok hr ih =>
    exact zoneInv_create db name lat lon radius sa now ok ih
  | activateZone db zid now hr ih => exact zoneInv_activate db zid now ih
  | attempt db name img location locTs now startT endT zone ok hr hz ih =>
    obtain ⟨hzs, hnext⟩ := process_zones dist db name img location locTs now
      startT endT zone ok
    obtain ⟨a, b, c⟩ := ih
    exact ⟨by rw [hzs]; exact a,
      by rw [hzs, hnext]; exact b,
      by rw [hzs]; exact c⟩
  | deactivateUser db uid hr ih => exact ih

/-- C1: at every state reachable from the initialized database through the
application's operations, at most one zone is active: zone creation with
`set_active` and zone activation both deactivate every other zone before
inserting or flagging the target one, within the transaction committed at
the end of the method, and no other operation touches the zone table. -/
theorem zone_activation_exclusive (dist : ℚ × ℚ → ℚ × ℚ → ℚ) (db : DB)
    (h : Reach dist db) : db.zones.countP (fun z => z.is_active) ≤ 1 :=
  (zoneInv_reach dist db h).2.2

/-- Witness for C1 at the initial database state. -/
theorem zone_activation_exclusive_witness :
    initDB.zones.countP (fun z => z.is_active) ≤ 1 :=
  zone_activation_exclusive (fun _ _ => 0) initDB Reach.init

end GPSAtt

namespace GPSAtt

/-- C10: the statistics aggregator bounds neither `absent` below by 0 nor
`rate` above by 100.  `present` counts distinct identities with a Present
record regardless of their `is_active` flag, while `total` counts only
active identities, so a state in which an identity is deactivated after
its Present record was created — reachable via two admitted attempts at
the default campus zone followed by the spec-modelled soft-delete — yields
`absent = -1 < 0` and `rate = 200 > 100`.  The only assumption on the
distance calculator is that the distance from the campus center to itself
is zero. -/
theorem stats_unbounded (dist : ℚ × ℚ → ℚ × ℚ → ℚ)
    (h : dist (10.678922, 77.032420) (10.678922, 77.032420) = 0) :
    ∃ db, Reach dist db ∧ (get_attendance_stats db 0).absent < 0 ∧
      100 < (get_attendance_stats db 0).rate := by
  have hs1 : sanitize_name "ab".toList = some ['a', 'b'] := by decide
  have hs2 : sanitize_name "cd".toList = some ['c', 'd'] := by decide
  have hfr1 : locationExpired (some 29000) 29000 = false := by
    show freshnessExpired 29000 29000 = false
    rw [freshnessExpired, decide_eq_false_iff_not, elapsedMinutes]
    norm_num
  have hfr2 : locationExpired (some 29100) 29100 = false := by
    show freshnessExpired 29100 29100 = false
    rw [freshnessExpired, decide_eq_false_iff_not, elapsedMinutes]
    norm_num
  have hwr : is_within_zone dist ⟨10.678922, 77.032420, 0⟩
      ⟨1, "College Campus Main".toList, 10.678922, 77.032420, 5500, true, 0⟩ =
      (true, 0) := by
    show (decide (dist (10.678922, 77.032420) (10.678922, 77.032420) ≤ 5500),
      dist (10.678922, 77.032420) (10.678922, 77.032420)) = (true, 0)
    rw [h]
    norm_num
  have hp1 : process_attendance_marking dist initDB "ab".toList
      (some ⟨1, true, 640, 480⟩) (some ⟨10.678922, 77.032420, 0⟩) (some 29000)
      29000 28800 64800
      ⟨1, "College Campus Main".toList, 10.678922, 77.032420, 5500, true, 0⟩ true =
      (⟨initDB.zones, [⟨1, ['a', 'b'], true⟩],
        [⟨1, 0, 29000, AttStatus.Present, 10.678922, 77.032420, 0, 1, 0⟩], 6, 2⟩,
       AdmissionResult.success 29000 0) := by
    simp only [process_attendance_marking, hs1, hfr1, hwr]
    rfl
  have hp2 : process_attendance_marking dist
      ⟨initDB.zones, [⟨1, ['a', 'b'], true⟩],
        [⟨1, 0, 29000, AttStatus.Present, 10.678922, 77.032420, 0, 1, 0⟩], 6, 2⟩
      "cd".toList (some ⟨1, true, 640, 480⟩) (some ⟨10.678922, 77.032420, 0⟩)
      (some 29100) 29100 28800 64800
      ⟨1, "College Campus Main".toList, 10.678922, 77.032420, 5500, true, 0⟩ true =
      (⟨initDB.zones, [⟨1, ['a', 'b'], true⟩, ⟨2, ['c', 'd'], true⟩],
        [⟨1, 0, 29000, AttStatus.Present, 10.678922, 77.032420, 0, 1, 0⟩,
         ⟨2, 0, 29100, AttStatus.Present, 10.678922, 77.032420, 0, 1, 0⟩], 6, 3⟩,
       AdmissionResult.success 29100 0) := by
    simp only [process_attendance_marking, hs2, hfr2, hwr]
    rfl
  have hq1 : Reach dist ⟨initDB.zones, [⟨1, ['a', 'b'], true⟩],
      [⟨1, 0, 29000, AttStatus.Present, 10.678922, 77.032420, 0, 1, 0⟩], 6, 2⟩ := by
    have hstep := Reach.attempt initDB "ab".toList (some ⟨1, true, 640, 480⟩)
      (some ⟨10.678922, 77.032420, 0⟩) (some 29000) 29000 28800 64800
      ⟨1, "College Campus Main".toList, 10.678922, 77.032420, 5500, true, 0⟩ true
      (Reach.init : Reach dist initDB) rfl
    rw [hp1] at hstep
    exact hstep
  have hq2 : Reach dist ⟨initDB.zones, [⟨1, ['a', 'b'], true⟩, ⟨2, ['c', 'd'], true⟩],
      [⟨1, 0, 29000, AttStatus.Present, 10.678922, 77.032420, 0, 1, 0⟩,
       ⟨2, 0, 29100, AttStatus.Present, 10.678922, 77.032420, 0, 1, 0⟩], 6, 3⟩ := by
    have hstep := Reach.attempt
      ⟨initDB.zones, [⟨1, ['a', 'b'], true⟩],
        [⟨1, 0, 29000, AttStatus.Present, 10.678922, 77.032420, 0, 1, 0⟩], 6, 2⟩
      "cd".toList (some ⟨1, true, 640, 480⟩) (some ⟨10.678922, 77.032420, 0⟩)
      (some 29100) 29100 28800 64800
      ⟨1, "College Campus Main".toList, 10.678922, 77.032420, 5500, true, 0⟩ true
      hq1 rfl
    rw [hp2] at hstep
    exact hstep
  have hq3 : Reach dist (deactivate_user
      ⟨initDB.zones, [⟨1, ['a', 'b'], true⟩, ⟨2, ['c', 'd'], true⟩],
        [⟨1, 0, 29000, AttStatus.Present, 10.678922, 77.032420, 0, 1, 0⟩,
         ⟨2, 0, 29100, AttStatus.Present, 10.678922, 77.032420, 0, 1, 0⟩], 6, 3⟩ 1) :=
    Reach.deactivateUser _ 1 hq2
  have hst : get_attendance_stats (deactivate_user
      ⟨initDB.zones, [⟨1, ['a', 'b'], true⟩, ⟨2, ['c', 'd'], true⟩],
        [⟨1, 0, 29000, AttStatus.Present, 10.678922, 77.032420, 0, 1, 0⟩,
         ⟨2, 0, 29100, AttStatus.Present, 10.678922, 77.032420, 0, 1, 0⟩], 6, 3⟩ 1) 0 =
      ⟨1, 2, -1, (2 : ℚ) / (1 : ℚ) * 100⟩ := rfl
  exact ⟨_, hq3, by rw [hst]; decide, by rw [hst]; norm_num⟩

/-- Witness for C10 with the concrete everywhere-zero distance function. -/
theorem stats_unbounded_witness :
    ∃ db, Reach (fun _ _ => 0) db ∧ (get_attendance_stats db 0).absent < 0 ∧
      100 < (get_attendance_stats db 0).rate :=
  stats_unbounded (fun _ _ => 0) rfl

end GPSAtt
